import Mathlib

/-!
Shallow embedding of the workout Telegram bot (src/context.rs and src/main.rs).

Modelling conventions:
* Rust `usize` is modelled as `Nat`, with 64-bit wrapping made explicit where
  overflow is reachable: counts admitted by the ingest parse can be as large
  as `2 ^ 64 - 1`, so the ledger accumulations (`*entry += count` in
  `add_user_progress` and the aggregation in `generate_final_message`) reduce
  modulo `2 ^ 64` (release-build wrapping semantics; a debug build would
  panic at the same inputs), and `str::parse::<usize>` keeps its `2 ^ 64`
  bound.  The day counter and the quota grow only by the fixed constants 1
  and `cycle_increase = 10` per day-advance and are kept as plain `Nat`.
* `HashMap<String, usize>` day ledgers are modelled as association lists with
  HashMap update semantics (first matching key is the entry).  No claimed
  function iterates a ledger except `generate_final_message`, whose line order
  is unspecified in Rust (HashMap iteration order); the model fixes insertion
  order, which no claim depends on.
* `Vec<T>` is `List T`.  Rust indexing `progress[current_day]` panics when out
  of range; the model totalises it with `List.getD` / `List.set`, which agree
  with the source whenever `current_day < progress.length` (the reachable
  states, by the `progress.length == current_day + 1` invariant).
* The Telegram `Api` handle and the side effects performed through it are
  modelled as an explicit list of `Effect`s; the result of the daily
  `send_message` call (which decides whether `daily_message_id` is updated and
  the message pinned) is passed in as an `Option Int` oracle.
-/

namespace Workout

/-- The modulus of `usize` on the 64-bit target. -/
def usize_size : Nat := 2 ^ 64

/-- One day's ledger: `HashMap<String, usize>` as an association list. -/
abbrev Ledger := List (String × Nat)

/-- `map.get(&k)`: the value stored for key `k`, if any. -/
def ledgerGet? : Ledger → String → Option Nat
  | [], _ => none
  | (k, v) :: rest, u => if k == u then some v else ledgerGet? rest u

/-- `map.get(&k).unwrap_or(&0)`. -/
def ledgerGetD (l : Ledger) (u : String) : Nat :=
  (ledgerGet? l u).getD 0

/-- `*map.entry(k).or_insert(0) += c`: add `c` to the entry for `k`,
creating a fresh entry (initialised to 0 before the addition) when absent.
The `+=` is 64-bit `usize` addition, so the stored value wraps modulo
`2 ^ 64`. -/
def ledgerEntryAdd : Ledger → String → Nat → Ledger
  | [], k, c => [(k, (0 + c) % usize_size)]
  | (k', v) :: rest, k, c =>
      if k' == k then (k', (v + c) % usize_size) :: rest
      else (k', v) :: ledgerEntryAdd rest k c

/-- `ContextData` from src/context.rs (the `api` handle is not part of the
pure state; side effects are modelled separately). -/
structure ContextData where
  chat_id : Int
  daily_message_id : Option Int
  current_day : Nat
  cycle_length : Nat
  cycle_increase : Nat
  duration : Nat
  repeats : Nat
  progress : List Ledger
  users : List String
deriving DecidableEq

/-- `ContextData::new` (src/context.rs lines 61-74). -/
def ContextData.new (chat_id : Int) : ContextData where
  chat_id := chat_id
  daily_message_id := none
  cycle_increase := 10
  cycle_length := 1
  current_day := 0
  progress := [[]]
  duration := 3
  repeats := 100
  users := []

/-- `self.progress[self.current_day]` (total model of the panicking index). -/
def ContextData.day_ledger (d : ContextData) : Ledger :=
  d.progress.getD d.current_day []

/-- `ContextData::is_user_done` (src/context.rs lines 80-82). -/
def ContextData.is_user_done (d : ContextData) (username : String) : Bool :=
  d.repeats ≤ ledgerGetD d.day_ledger username

/-- `ContextData::is_all_users_done` (src/context.rs lines 84-92): the loop
with early `return false` is `List.all`. -/
def ContextData.is_all_users_done (d : ContextData) : Bool :=
  d.users.all fun username => d.is_user_done username

/-- `ContextData::add_user_progress` (src/context.rs lines 94-102). -/
def ContextData.add_user_progress (d : ContextData) (username : String) (count : Nat) :
    ContextData :=
  let users := if d.users.contains username then d.users else d.users ++ [username]
  { d with
      users := users
      progress := d.progress.set d.current_day (ledgerEntryAdd d.day_ledger username count) }

/-- `ContextData::init_next_day` (src/context.rs lines 104-115).  Returns the
new state together with the `bool` the Rust function returns (whether the
quota was increased).  Note the guard is `current_day != 1`, not
`current_day > 0`. -/
def ContextData.init_next_day (d : ContextData) : ContextData × Bool :=
  if (d.current_day + 1) != 1 && (d.current_day + 1) % d.cycle_length == 0 then
    ({ d with current_day := d.current_day + 1, progress := d.progress ++ [[]],
              repeats := d.repeats + d.cycle_increase }, true)
  else
    ({ d with current_day := d.current_day + 1, progress := d.progress ++ [[]] }, false)

/-- `ContextData::is_workout_over` (src/context.rs lines 117-119). -/
def ContextData.is_workout_over (d : ContextData) : Bool :=
  d.duration ≤ d.current_day

/-- `ContextData::generate_daily_message` (src/context.rs lines 121-135). -/
def ContextData.generate_daily_message (d : ContextData) : String :=
  let text :=
    d.users.foldl
      (fun text username =>
        text ++ (username ++ ": " ++ toString (ledgerGetD d.day_ledger username) ++ "\n"))
      ""
  text ++ ("День " ++ toString d.current_day ++ " из " ++ toString d.duration ++ ". "
    ++ toString d.repeats ++ " повторений\n")

/-- `ContextData::generate_final_message` (src/context.rs lines 137-159); the
per-user line order follows insertion order of the aggregate map (HashMap
iteration order is unspecified in Rust; no claim depends on it). -/
def ContextData.generate_final_message (d : ContextData) : String :=
  let users_progress :=
    d.progress.foldl (fun acc led => led.foldl (fun a p => ledgerEntryAdd a p.1 p.2) acc) []
  let total_progress :=
    d.progress.foldl (fun acc led => led.foldl (fun a p => (a + p.2) % usize_size) acc) 0
  let text :=
    "Тренировка окончена! Мы прозанимались " ++ toString d.duration
      ++ " дней и отжались " ++ toString total_progress ++ " раз на всех.\n"
  users_progress.foldl (fun acc p => acc ++ (p.1 ++ ": " ++ toString p.2 ++ "\n")) text

/-- `ContextData::generate_end_of_cycle_message` (src/context.rs lines 161-167). -/
def ContextData.generate_end_of_cycle_message (d : ContextData) : String :=
  "Очередной цикл завершён! Увеличиваем повторения с "
    ++ toString (d.repeats - d.cycle_increase) ++ " до " ++ toString d.repeats ++ "."

/-- `ContextCommand` from src/context.rs (lines 21-27).  `SendDailyMessage` is
the day-advance trigger (the spec's `AdvanceDay`). -/
inductive ContextCommand where
  | SendDailyMessage : ContextCommand
  | AddPushups (username : String) (count : Nat) : ContextCommand
deriving DecidableEq

/-- The Telegram side effects performed by the actor, in program order. -/
inductive Effect where
  | unpinDaily : Effect
  | pinDaily : Effect
  | sendMessage (text : String) : Effect
  | editDailyMessage (text : String) : Effect
deriving DecidableEq

/-- One iteration of the `handle_commands` actor loop (src/main.rs lines
194-238): processing one command.  Returns the new state, the effects
performed, and whether the actor returned (terminated).
`dailySendResult` is the outcome of the `send_message` call for the daily
status text: `some id` when Telegram returned a message with that id, `none`
on failure (it is ignored by every other branch).  `update_daily_message`
performs an edit only when `daily_message_id` is set (src/context.rs lines
220-235); its failure is only logged. -/
def handle_command (d : ContextData) (cmd : ContextCommand) (dailySendResult : Option Int) :
    ContextData × List Effect × Bool :=
  match cmd with
  | .SendDailyMessage =>
      if d.is_workout_over then
        (d, [.unpinDaily, .sendMessage d.generate_final_message, .unpinDaily], true)
      else
        let stepped := d.init_next_day
        let d1 := stepped.1
        let cycleEffects :=
          if stepped.2 then [Effect.sendMessage d1.generate_end_of_cycle_message] else []
        let text := d1.generate_daily_message
        match dailySendResult with
        | some message_id =>
            ({ d1 with daily_message_id := some message_id },
             [Effect.unpinDaily] ++ cycleEffects ++ [.sendMessage text, .pinDaily], false)
        | none =>
            (d1, [Effect.unpinDaily] ++ cycleEffects ++ [.sendMessage text], false)
  | .AddPushups username count =>
      let d1 := d.add_user_progress username count
      let editEffects :=
        match d1.daily_message_id with
        | some _ => [Effect.editDailyMessage d1.generate_daily_message]
        | none => []
      let doneEffects :=
        if d1.is_user_done username then [Effect.sendMessage "🥳"] else []
      let allDoneEffects :=
        if d1.is_all_users_done then [Effect.sendMessage "На сегодня всё 🎉"] else []
      (d1, editEffects ++ doneEffects ++ allDoneEffects, false)

/-- `handle_commands` (src/main.rs lines 194-238): the actor drains its queue
one command at a time, stopping for good once a command handler returns
(terminal day-advance).  Commands arriving after termination are never
processed. -/
def handle_commands (d : ContextData) :
    List (ContextCommand × Option Int) → ContextData × List Effect
  | [] => (d, [])
  | (cmd, oracle) :: rest =>
      let step := handle_command d cmd oracle
      if step.2.2 then (step.1, step.2.1)
      else
        let tail := handle_commands step.1 rest
        (tail.1, step.2.1 ++ tail.2)

/-! ### The ingest loop (src/main.rs `get_all_updates`) -/

/-- The sender of a Telegram message (`message.from`; just the field the
ingest loop reads). -/
structure Sender where
  username : Option String
deriving DecidableEq

/-- An inbound Telegram message (the fields the ingest loop reads).  The Rust
field `from` is a Lean keyword, hence `from_user`. -/
structure TgMessage where
  chat_id : Int
  text : Option String
  from_user : Option Sender
deriving DecidableEq

/-- A polled update (src/main.rs; `message` or `edited_message`). -/
structure TgUpdate where
  update_id : Int
  message : Option TgMessage
  edited_message : Option TgMessage
deriving DecidableEq

/-- `get_chat_id_from_update` (src/main.rs lines 240-252). -/
def get_chat_id_from_update (u : TgUpdate) : Option Int :=
  match u.message with
  | some m => some m.chat_id
  | none =>
      match u.edited_message with
      | some m => some m.chat_id
      | none => none

/-- A registered chat actor: its (initial) state and the queue of commands
enqueued to its channel by the ingest loop, oldest first. -/
structure ActorEntry where
  state : ContextData
  queue : List ContextCommand
deriving DecidableEq

/-- The `Contexts.txs` registry, chat id to actor, insertion ordered. -/
abbrev Registry := List (Int × ActorEntry)

/-- `txs.contains_key(&chat_id)`. -/
def registryContains (r : Registry) (chat_id : Int) : Bool :=
  r.any fun p => p.1 == chat_id

/-- `HashMap::insert`: replace the entry when the key is present, add it
otherwise. -/
def registryInsert : Registry → Int → ActorEntry → Registry
  | [], chat_id, e => [(chat_id, e)]
  | (id', e') :: rest, chat_id, e =>
      if id' == chat_id then (id', e) :: rest
      else (id', e') :: registryInsert rest chat_id e

/-- Enqueue a command on a registered actor's channel (`tx.send`). -/
def registryEnqueue : Registry → Int → ContextCommand → Registry
  | [], _, _ => []
  | (id', e') :: rest, chat_id, cmd =>
      if id' == chat_id then (id', { e' with queue := e'.queue ++ [cmd] }) :: rest
      else (id', e') :: registryEnqueue rest chat_id cmd

/-- `init_context` (src/main.rs lines 177-192): create a fresh channel and
actor state, register the handle.  Nothing is enqueued on the new channel. -/
def init_context (r : Registry) (chat_id : Int) : Registry :=
  registryInsert r chat_id { state := ContextData.new chat_id, queue := [] }

/-- `str::parse::<usize>` on a 64-bit target: an optional `+` sign followed by
one or more ASCII digits, rejecting values not below `2 ^ 64`. -/
def parse_usize (s : String) : Option Nat :=
  let digits :=
    match s.data with
    | '+' :: rest => rest
    | cs => cs
  if digits.isEmpty then none
  else if digits.all Char.isDigit then
    let v := digits.foldl (fun a c => a * 10 + (c.toNat - 48)) 0
    if v < usize_size then some v else none
  else none

/-- The outcome of one iteration of the ingest loop body: either the updated
registry, or a panic of the ingest task (an `unwrap` on `None`). -/
inductive IngestStep where
  | ok (r : Registry) : IngestStep
  | panicked : IngestStep
deriving DecidableEq

/-- The body of the `for update in response.result` loop of `get_all_updates`
(src/main.rs lines 66-117) for one update: resolve the chat, lazily start an
actor on the exact text `/start`, then, when the chat is registered, parse the
text as `usize` and enqueue `AddPushups` — where `message.from.unwrap()` and
`.username.unwrap()` panic when the sender or its username is absent. -/
def process_update (r : Registry) (u : TgUpdate) : IngestStep :=
  match get_chat_id_from_update u with
  | none => .ok r
  | some chat_id =>
      let r :=
        if !registryContains r chat_id then
          match u.message with
          | some m =>
              match m.text with
              | some text => if text == "/start" then init_context r chat_id else r
              | none => r
          | none => r
        else r
      if registryContains r chat_id then
        match u.message with
        | none => .ok r
        | some m =>
            match m.text with
            | none => .ok r
            | some text =>
                match parse_usize text with
                | none => .ok r
                | some count =>
                    match m.from_user with
                    | none => .panicked
                    | some sender =>
                        match sender.username with
                        | none => .panicked
                        | some username =>
                            .ok (registryEnqueue r chat_id (.AddPushups username count))
      else .ok r

/-! ### Batch application of `AddProgress` submissions (for the totals claim) -/

/-- Apply a batch of `AddPushups(username, count)` submissions in order. -/
def apply_adds (d : ContextData) : List (String × Nat) → ContextData
  | [] => d
  | (u, c) :: rest => apply_adds (d.add_user_progress u c) rest

/-- The sum of the counts submitted for `username` in a batch. -/
def countsFor (username : String) : List (String × Nat) → Nat
  | [] => 0
  | (u, c) :: rest => (if u = username then c else 0) + countsFor username rest

/-- `progress.length == current_day + 1`, the day-ledger invariant. -/
def progress_invariant (d : ContextData) : Prop :=
  d.progress.length = d.current_day + 1

/-- A state whose workout is already over (`current_day = duration = 3`). -/
def finished_state : ContextData :=
  { ContextData.new 0 with current_day := 3, progress := [[], [], [], []] }

/-- The `/start` message of a chat with no live registry entry. -/
def start_update : TgUpdate where
  update_id := 1
  message := some { chat_id := 7, text := some "/start",
                    from_user := some { username := some "alice" } }
  edited_message := none

/-- A registry with one live entry, for chat 7. -/
def registry_one : Registry := [(7, { state := ContextData.new 7, queue := [] })]

/-- A numeric progress message whose sender has no username. -/
def no_username_update : TgUpdate where
  update_id := 2
  message := some { chat_id := 7, text := some "10",
                    from_user := some { username := none } }
  edited_message := none

/-- The roster lines of the daily status: one `"<username>: <count>\n"` line
per roster member, in roster order. -/
def status_lines (led : Ledger) : List String → String
  | [] => ""
  | u :: rest => (u ++ ": " ++ toString (ledgerGetD led u) ++ "\n") ++ status_lines led rest

/-- A one-member state whose member has exactly met the quota today. -/
def done_state : ContextData :=
  { ContextData.new 0 with users := ["a"], progress := [[("a", 100)]] }

/-! ### Ledger lemmas -/

theorem ledgerGetD_entryAdd (l : Ledger) (k u : String) (c : Nat) :
    ledgerGetD (ledgerEntryAdd l k c) u =
      if k = u then (ledgerGetD l u + c) % usize_size else ledgerGetD l u := by
  induction l with
  | nil =>
      by_cases h : k = u <;> simp [ledgerEntryAdd, ledgerGetD, ledgerGet?, h]
  | cons p rest ih =>
      obtain ⟨k', v⟩ := p
      by_cases h1 : k' = k
      · subst h1
        by_cases h2 : k' = u <;>
          simp [ledgerEntryAdd, ledgerGetD, ledgerGet?, h2]
      · by_cases h2 : k' = u
        · subst h2
          have hku : ¬ k = k' := fun hk => h1 hk.symm
          simp [ledgerEntryAdd, ledgerGetD, ledgerGet?, h1, hku]
        · simpa [ledgerEntryAdd, ledgerGetD, ledgerGet?, h1, h2] using ih

theorem ledgerGet?_entryAdd_self (l : Ledger) (k : String) (c : Nat) :
    ledgerGet? (ledgerEntryAdd l k c) k = some ((ledgerGetD l k + c) % usize_size) := by
  induction l with
  | nil => simp [ledgerEntryAdd, ledgerGet?, ledgerGetD]
  | cons p rest ih =>
      obtain ⟨k', v⟩ := p
      by_cases h1 : k' = k <;>
        simp [ledgerEntryAdd, ledgerGet?, ledgerGetD, h1, ih]

theorem ledgerGet?_entryAdd_ne (l : Ledger) (k u : String) (c : Nat) (h : ¬ k = u) :
    ledgerGet? (ledgerEntryAdd l k c) u = ledgerGet? l u := by
  induction l with
  | nil => simp [ledgerEntryAdd, ledgerGet?, h]
  | cons p rest ih =>
      obtain ⟨k', v⟩ := p
      by_cases h1 : k' = k
      · subst h1; simp [ledgerEntryAdd, ledgerGet?, h]
      · simp [ledgerEntryAdd, ledgerGet?, h1, ih]

/-! ### State-transition lemmas -/

theorem add_user_progress_current_day (d : ContextData) (u : String) (c : Nat) :
    (d.add_user_progress u c).current_day = d.current_day := rfl

theorem add_user_progress_repeats (d : ContextData) (u : String) (c : Nat) :
    (d.add_user_progress u c).repeats = d.repeats := rfl

theorem add_user_progress_daily_message_id (d : ContextData) (u : String) (c : Nat) :
    (d.add_user_progress u c).daily_message_id = d.daily_message_id := rfl

theorem add_user_progress_length (d : ContextData) (u : String) (c : Nat) :
    (d.add_user_progress u c).progress.length = d.progress.length := by
  simp [ContextData.add_user_progress]

theorem day_ledger_add_user_progress (d : ContextData) (u : String) (c : Nat)
    (h : d.current_day < d.progress.length) :
    (d.add_user_progress u c).day_ledger = ledgerEntryAdd d.day_ledger u c := by
  simp [ContextData.add_user_progress, ContextData.day_ledger, List.getD,
    List.getElem?_set_self, h]

theorem init_next_day_spec (d : ContextData) :
    d.init_next_day =
      if d.current_day + 1 ≠ 1 ∧ (d.current_day + 1) % d.cycle_length = 0 then
        ({ d with current_day := d.current_day + 1, progress := d.progress ++ [[]],
                  repeats := d.repeats + d.cycle_increase }, true)
      else
        ({ d with current_day := d.current_day + 1, progress := d.progress ++ [[]] }, false) := by
  by_cases hc : d.current_day + 1 ≠ 1 ∧ (d.current_day + 1) % d.cycle_length = 0
  · have hb : ((d.current_day + 1) != 1 && (d.current_day + 1) % d.cycle_length == 0) = true := by
      rw [Bool.and_eq_true, bne_iff_ne, beq_iff_eq]
      exact ⟨hc.1, hc.2⟩
    rw [ContextData.init_next_day, if_pos hc, hb]
    simp
  · have hb : ((d.current_day + 1) != 1 && (d.current_day + 1) % d.cycle_length == 0) = false := by
      have hnb : ¬ ((d.current_day + 1) != 1 && (d.current_day + 1) % d.cycle_length == 0) = true := by
        rw [Bool.and_eq_true, bne_iff_ne, beq_iff_eq]
        exact hc
      simpa using hnb
    rw [ContextData.init_next_day, if_neg hc, hb]
    simp

theorem init_next_day_current_day (d : ContextData) :
    d.init_next_day.1.current_day = d.current_day + 1 := by
  rw [init_next_day_spec]
  split <;> rfl

theorem init_next_day_progress_length (d : ContextData) :
    d.init_next_day.1.progress.length = d.progress.length + 1 := by
  rw [init_next_day_spec]
  split <;> simp

theorem init_next_day_repeats (d : ContextData) :
    d.init_next_day.1.repeats =
      if d.current_day + 1 ≠ 1 ∧ (d.current_day + 1) % d.cycle_length = 0
      then d.repeats + d.cycle_increase else d.repeats := by
  rw [init_next_day_spec]
  split <;> simp_all

/-! ### Claims C1-C4 -/

/-- C1 counterexample: both submitted counts pass the ingest `usize` parse,
yet after alice submits `2 ^ 64 - 1` and then `1` on the same day, the stored
day total is 0 — the `usize` accumulation `*entry += count` wraps — and not
the mathematical sum `2 ^ 64` the claim asserts. -/
theorem addProgress_totals_counterexample :
    parse_usize "18446744073709551615" = some 18446744073709551615
    ∧ parse_usize "1" = some 1
    ∧ ledgerGetD (apply_adds (ContextData.new 0)
        [("alice", 18446744073709551615), ("alice", 1)]).day_ledger "alice" = 0
    ∧ countsFor "alice" [("alice", 18446744073709551615), ("alice", 1)]
        = 18446744073709551616
    ∧ ¬ ledgerGetD (apply_adds (ContextData.new 0)
          [("alice", 18446744073709551615), ("alice", 1)]).day_ledger "alice"
        = countsFor "alice" [("alice", 18446744073709551615), ("alice", 1)] := by
  decide

/-- C1 amended: for every batch of `AddProgress(username, count)` submissions
applied to one chat's state, the resulting per-user total in the current
day's ledger equals the prior total plus the sum of all counts submitted for
that user, reduced modulo `2 ^ 64` (the `usize` accumulation wraps); in
particular it equals the exact mathematical sum whenever that sum is below
`2 ^ 64`.  Each command adds `count` to `progress[current_day][username]`,
defaulting to 0 when absent. -/
theorem addProgress_totals_wrapped (d : ContextData) (cmds : List (String × Nat)) (u : String)
    (h : d.current_day < d.progress.length)
    (hv : ledgerGetD d.day_ledger u < usize_size) :
    ledgerGetD (apply_adds d cmds).day_ledger u
      = (ledgerGetD d.day_ledger u + countsFor u cmds) % usize_size
    ∧ (ledgerGetD d.day_ledger u + countsFor u cmds < usize_size →
        ledgerGetD (apply_adds d cmds).day_ledger u
          = ledgerGetD d.day_ledger u + countsFor u cmds) := by
  have main : ∀ (cmds : List (String × Nat)) (d : ContextData),
      d.current_day < d.progress.length →
      ledgerGetD d.day_ledger u < usize_size →
      ledgerGetD (apply_adds d cmds).day_ledger u
        = (ledgerGetD d.day_ledger u + countsFor u cmds) % usize_size := by
    intro cmds
    induction cmds with
    | nil =>
        intro d _ hv
        simp [apply_adds, countsFor, Nat.mod_eq_of_lt hv]
    | cons p rest ih =>
        obtain ⟨u0, c0⟩ := p
        intro d hd hv
        have hd' : (d.add_user_progress u0 c0).current_day
            < (d.add_user_progress u0 c0).progress.length := by
          rw [add_user_progress_current_day, add_user_progress_length]
          exact hd
        have hstep : ledgerGetD (d.add_user_progress u0 c0).day_ledger u
            = if u0 = u then (ledgerGetD d.day_ledger u + c0) % usize_size
              else ledgerGetD d.day_ledger u := by
          rw [day_ledger_add_user_progress d u0 c0 hd, ledgerGetD_entryAdd]
        have hv' : ledgerGetD (d.add_user_progress u0 c0).day_ledger u < usize_size := by
          rw [hstep]
          split
          · exact Nat.mod_lt _ (by norm_num [usize_size])
          · exact hv
        rw [apply_adds, ih _ hd' hv', hstep, countsFor]
        by_cases h0 : u0 = u
        · subst h0
          simp [Nat.mod_add_mod, Nat.add_assoc]
        · simp [h0]
  refine ⟨main cmds d h hv, fun hlt => ?_⟩
  rw [main cmds d h hv, Nat.mod_eq_of_lt hlt]

/-- Witness for C1's amended theorem: alice submits 60 then 50 (with bob
submitting 10 in between); her stored day total is the wrapped sum of her
counts, here exactly 110. -/
theorem addProgress_totals_wrapped_witness :
    ledgerGetD (apply_adds (ContextData.new 0)
        [("alice", 60), ("bob", 10), ("alice", 50)]).day_ledger "alice"
      = (ledgerGetD (ContextData.new 0).day_ledger "alice"
          + countsFor "alice" [("alice", 60), ("bob", 10), ("alice", 50)]) % usize_size :=
  (addProgress_totals_wrapped (ContextData.new 0) _ "alice" (by decide) (by decide)).1

/-- C2 counterexample: advancing the fresh state (day 0, quota 100,
`cycle_length` 1, `cycle_increase` 10) reaches day 1, where the claimed
condition `current_day % cycle_length == 0 ∧ current_day > 0` holds, yet the
quota stays 100 rather than becoming 110: the source guards the increase with
`current_day != 1`. -/
theorem quota_day1_counterexample :
    ((ContextData.new 0).init_next_day.1.current_day
        % (ContextData.new 0).init_next_day.1.cycle_length = 0
      ∧ 0 < (ContextData.new 0).init_next_day.1.current_day)
    ∧ (ContextData.new 0).init_next_day.1.repeats = 100
    ∧ ¬ (ContextData.new 0).init_next_day.1.repeats
        = (ContextData.new 0).repeats + (ContextData.new 0).cycle_increase := by
  decide

/-- C2 amended: on a day-advance the quota increases by exactly
`cycle_increase` when the new `current_day` satisfies `current_day != 1` and
`current_day % cycle_length == 0`, and stays unchanged otherwise; in
particular advancing from day 0 to day 1 with `cycle_length = 1` leaves the
quota at 100. -/
theorem init_next_day_quota (d : ContextData) :
    d.init_next_day.1.current_day = d.current_day + 1
    ∧ (d.init_next_day.1.repeats =
        if d.current_day + 1 ≠ 1 ∧ (d.current_day + 1) % d.cycle_length = 0
        then d.repeats + d.cycle_increase else d.repeats)
    ∧ d.repeats ≤ d.init_next_day.1.repeats
    ∧ (ContextData.new 0).init_next_day.1.repeats = 100 :=
  ⟨init_next_day_current_day d, init_next_day_repeats d, by
    rw [init_next_day_repeats]; split <;> omega, by decide⟩

/-- C3: `progress.length == current_day + 1` holds for the fresh state and is
preserved by the processing of every command (both `AddProgress` and the
day-advance `SendDailyMessage`). -/
theorem progress_invariant_preserved :
    (∀ chat_id : Int, progress_invariant (ContextData.new chat_id))
    ∧ ∀ (d : ContextData) (cmd : ContextCommand) (o : Option Int),
        progress_invariant d → progress_invariant (handle_command d cmd o).1 := by
  constructor
  · intro chat_id; rfl
  · intro d cmd o h
    cases cmd with
    | SendDailyMessage =>
        by_cases hw : d.is_workout_over
        · simpa [handle_command, hw] using h
        · have hlen := init_next_day_progress_length d
          have hday := init_next_day_current_day d
          cases o with
          | none =>
              simp only [handle_command, hw, Bool.false_eq_true, if_false]
              unfold progress_invariant at h ⊢
              rw [hlen, hday, h]
          | some mid =>
              simp only [handle_command, hw, Bool.false_eq_true, if_false]
              unfold progress_invariant at h ⊢
              rw [hlen, hday, h]
    | AddPushups u c =>
        unfold progress_invariant at h ⊢
        simp only [handle_command]
        rw [add_user_progress_length, add_user_progress_current_day, h]

/-- Witness for C3: the invariant holds after processing an `AddPushups`
command from the fresh state. -/
theorem progress_invariant_preserved_witness :
    progress_invariant
      (handle_command (ContextData.new 5) (ContextCommand.AddPushups "alice" 10) none).1 :=
  progress_invariant_preserved.2 (ContextData.new 5) (ContextCommand.AddPushups "alice" 10)
    none (progress_invariant_preserved.1 5)

/-- C4: `is_all_users_done` returns `true` iff every roster member's
current-day total (0 when absent from the ledger) is at least the quota; for
an empty roster it is vacuously `true`. -/
theorem is_all_users_done_iff (d : ContextData) :
    (d.is_all_users_done = true ↔ ∀ u ∈ d.users, d.repeats ≤ ledgerGetD d.day_ledger u)
    ∧ ({ d with users := [] } : ContextData).is_all_users_done = true := by
  constructor
  · simp [ContextData.is_all_users_done, ContextData.is_user_done, List.all_eq_true,
      ContextData.day_ledger]
  · simp [ContextData.is_all_users_done]

/-- Witness for C4: the fresh state (empty roster) is vacuously all-done. -/
theorem is_all_users_done_iff_witness :
    (ContextData.new 0).is_all_users_done = true :=
  (is_all_users_done_iff (ContextData.new 0)).1.mpr (by simp [ContextData.new])

/-! ### Claim C5: the terminal day-advance -/

/-- C5: processing the day-advance command in a state with
`current_day >= duration` sends the final summary (between the two unpins),
appends no day ledger and leaves the whole state unchanged, and terminates the
actor; consequently a run whose first command is the terminal day-advance
processes none of the queued commands after it — no further ledgers are
appended and no fresh daily status is sent. -/
theorem terminal_advance_day (d : ContextData) (o : Option Int)
    (rest : List (ContextCommand × Option Int)) (h : d.is_workout_over = true) :
    handle_command d ContextCommand.SendDailyMessage o
      = (d, [Effect.unpinDaily, Effect.sendMessage d.generate_final_message,
             Effect.unpinDaily], true)
    ∧ handle_commands d ((ContextCommand.SendDailyMessage, o) :: rest)
      = (d, [Effect.unpinDaily, Effect.sendMessage d.generate_final_message,
             Effect.unpinDaily]) := by
  have h1 : handle_command d ContextCommand.SendDailyMessage o
      = (d, [Effect.unpinDaily, Effect.sendMessage d.generate_final_message,
             Effect.unpinDaily], true) := by
    simp [handle_command, h]
  exact ⟨h1, by simp [handle_commands, h1]⟩

/-- Witness for C5: from a finished state, a terminal day-advance followed by
a queued progress report processes only the former. -/
theorem terminal_advance_day_witness :
    handle_commands finished_state
        [(ContextCommand.SendDailyMessage, none), (ContextCommand.AddPushups "alice" 5, none)]
      = (finished_state,
         [Effect.unpinDaily, Effect.sendMessage finished_state.generate_final_message,
          Effect.unpinDaily]) :=
  (terminal_advance_day finished_state none [(ContextCommand.AddPushups "alice" 5, none)]
    (by decide)).2

/-! ### Claims C6 and C7: the ingest loop -/

theorem registryInsert_not_contains (r : Registry) (chat_id : Int) (e : ActorEntry)
    (h : registryContains r chat_id = false) :
    registryInsert r chat_id e = r ++ [(chat_id, e)] := by
  induction r with
  | nil => rfl
  | cons p rest ih =>
      obtain ⟨id', e'⟩ := p
      rw [registryContains, List.any_cons, Bool.or_eq_false_iff] at h
      simp only [registryInsert, h.1, Bool.false_eq_true, if_false, List.cons_append,
        List.cons.injEq, true_and]
      exact ih h.2

/-- C6 counterexample: ingesting `/start` from the unregistered chat 7
registers a fresh actor whose command queue is empty — no initial day-advance
command is enqueued (the first daily status waits for the next scheduler
tick), contradicting the claimed immediate enqueue. -/
theorem start_enqueues_nothing_counterexample :
    process_update [] start_update
      = IngestStep.ok [(7, { state := ContextData.new 7, queue := [] })]
    ∧ process_update [] start_update
      ≠ IngestStep.ok [(7, { state := ContextData.new 7,
                             queue := [ContextCommand.SendDailyMessage] })] := by
  decide

/-- C6 amended: for every inbound message whose chat has no live registry
entry and whose body is exactly `/start`, the ingest iteration spawns a fresh
actor state and registers its handle, but enqueues no command at all: the
start text fails the numeric parse, so the new actor's queue stays empty and
the first daily status is only triggered by the scheduler. -/
theorem start_spawns_fresh_actor (r : Registry) (u : TgUpdate) (m : TgMessage)
    (hm : u.message = some m) (ht : m.text = some "/start")
    (hr : registryContains r m.chat_id = false) :
    process_update r u
      = IngestStep.ok
          (r ++ [(m.chat_id, { state := ContextData.new m.chat_id, queue := [] })]) := by
  have hinsert : init_context r m.chat_id
      = r ++ [(m.chat_id, { state := ContextData.new m.chat_id, queue := [] })] := by
    unfold init_context
    exact registryInsert_not_contains r m.chat_id _ hr
  have hcontains : registryContains
      (r ++ [(m.chat_id, { state := ContextData.new m.chat_id, queue := [] })])
      m.chat_id = true := by
    simp [registryContains]
  have hp : parse_usize "/start" = none := by decide
  simp [process_update, get_chat_id_from_update, hm, ht, hr, hinsert, hcontains, hp]

/-- Witness for C6's amended theorem at the concrete `/start` update. -/
theorem start_spawns_fresh_actor_witness :
    process_update [] start_update
      = IngestStep.ok [(7, { state := ContextData.new 7, queue := [] })] :=
  start_spawns_fresh_actor [] start_update _ rfl rfl rfl

/-- C7 counterexample: a message to a registered chat whose body parses as a
non-negative integer but whose sender has no username makes the ingest
iteration panic (`message.from.unwrap().username.unwrap()`), rather than being
dropped with the registry left as it was. -/
theorem no_username_counterexample :
    process_update registry_one no_username_update = IngestStep.panicked
    ∧ process_update registry_one no_username_update ≠ IngestStep.ok registry_one := by
  decide

/-- C7 amended: for every polled message addressed to a chat with a live
registry entry whose body parses as a non-negative integer but whose sender
is absent or has no username, the ingest iteration panics on an `unwrap` of
`None` (crashing the ingest task) instead of dropping the message. -/
theorem no_username_panics (r : Registry) (u : TgUpdate) (m : TgMessage) (t : String) (n : Nat)
    (hm : u.message = some m) (ht : m.text = some t) (hp : parse_usize t = some n)
    (hr : registryContains r m.chat_id = true)
    (hu : m.from_user = none ∨ ∃ s, m.from_user = some s ∧ s.username = none) :
    process_update r u = IngestStep.panicked := by
  rcases hu with hnone | ⟨s, hs, hsu⟩
  · simp [process_update, get_chat_id_from_update, hm, ht, hp, hr, hnone]
  · simp [process_update, get_chat_id_from_update, hm, ht, hp, hr, hs, hsu]

/-- Witness for C7's amended theorem at the concrete username-less update. -/
theorem no_username_panics_witness :
    process_update registry_one no_username_update = IngestStep.panicked :=
  no_username_panics registry_one no_username_update _ "10" 10 rfl rfl (by decide) rfl
    (Or.inr ⟨{ username := none }, rfl, rfl⟩)

/-! ### Claim C8: the daily status message -/

theorem foldl_status (led : Ledger) (l : List String) (acc : String) :
    l.foldl (fun text username =>
        text ++ (username ++ ": " ++ toString (ledgerGetD led username) ++ "\n")) acc
      = acc ++ status_lines led l := by
  induction l generalizing acc with
  | nil => simp [status_lines, String.append_empty]
  | cons u rest ih => rw [List.foldl_cons, ih, status_lines, String.append_assoc]

/-- C8: the daily status message is exactly one `"<username>: <today's
count>"` line per roster member, in roster (insertion) order, with the count
defaulting to 0, followed by a summary line stating the displayed day number,
the total duration and the current quota.  The number displayed is
`current_day`, and a daily status is only ever emitted after the in-command
`init_next_day`, so the emitted status of a pre-advance state `d` displays
`d.current_day + 1`: days are displayed 1-based (a fresh chat's first status
shows day 1 of 3). -/
theorem daily_message_format (d : ContextData) (o : Option Int) :
    d.generate_daily_message
      = status_lines d.day_ledger d.users
        ++ ("День " ++ toString d.current_day ++ " из " ++ toString d.duration ++ ". "
            ++ toString d.repeats ++ " повторений\n")
    ∧ (d.is_workout_over = false →
        Effect.sendMessage d.init_next_day.1.generate_daily_message
            ∈ (handle_command d ContextCommand.SendDailyMessage o).2.1
          ∧ d.init_next_day.1.current_day = d.current_day + 1) := by
  constructor
  · unfold ContextData.generate_daily_message
    rw [foldl_status, String.empty_append]
  · intro hw
    refine ⟨?_, init_next_day_current_day d⟩
    cases o <;>
      · simp only [handle_command, hw, Bool.false_eq_true, if_false]
        split <;> simp

/-- Witness for C8: the first daily status of a fresh chat is emitted for the
post-advance state (which displays day 1). -/
theorem daily_message_format_witness :
    Effect.sendMessage (ContextData.new 0).init_next_day.1.generate_daily_message
      ∈ (handle_command (ContextData.new 0) ContextCommand.SendDailyMessage none).2.1 :=
  ((daily_message_format (ContextData.new 0) none).2 (by decide)).1

/-! ### Claim C9: celebration messages have no once-only latch -/

/-- C9: processing `AddPushups` never terminates the actor, emits the
per-user celebratory message iff the reporter's post-update current-day total
meets the quota, and emits the day-complete message iff the post-update
all-users-done predicate holds — the conditions are recomputed from state on
every submission, so the messages fire on every qualifying submission, not
only when the threshold is first crossed. -/
theorem celebration_every_submission (d : ContextData) (username : String) (count : Nat)
    (o : Option Int) :
    (handle_command d (ContextCommand.AddPushups username count) o).2.2 = false
    ∧ (Effect.sendMessage "🥳"
          ∈ (handle_command d (ContextCommand.AddPushups username count) o).2.1
        ↔ (d.add_user_progress username count).is_user_done username = true)
    ∧ (Effect.sendMessage "На сегодня всё 🎉"
          ∈ (handle_command d (ContextCommand.AddPushups username count) o).2.1
        ↔ (d.add_user_progress username count).is_all_users_done = true) := by
  have hne : ("🥳" : String) ≠ "На сегодня всё 🎉" := by decide
  refine ⟨rfl, ?_, ?_⟩ <;>
  · simp only [handle_command]
    rcases hdm : (d.add_user_progress username count).daily_message_id with _ | mid <;>
      by_cases h1 : (d.add_user_progress username count).is_user_done username <;>
        by_cases h2 : (d.add_user_progress username count).is_all_users_done <;>
          simp [hdm, h1, h2, hne, hne.symm]

/-- Witness for C9: alice reaching the quota from the fresh state triggers the
celebratory message. -/
theorem celebration_every_submission_witness :
    Effect.sendMessage "🥳"
      ∈ (handle_command (ContextData.new 0) (ContextCommand.AddPushups "alice" 100) none).2.1 :=
  (celebration_every_submission (ContextData.new 0) "alice" 100 none).2.1.mpr (by decide)

/-! ### Claim C10: a zero-count report from a new user -/

/-- C10: `add_user_progress(username, 0)` for a previously-unseen user (not in
the roster, no ledger entry) appends the user to the roster and creates an
explicit zero entry in the current day's ledger; every per-user total (with
the 0 default) is unchanged, and when the quota is positive the newcomer flips
`is_all_users_done` from `true` to `false`. -/
theorem zero_report_flips_all_done (d : ContextData) (u : String)
    (hu : d.users.contains u = false)
    (hl : ledgerGet? d.day_ledger u = none)
    (hd : d.current_day < d.progress.length)
    (hq : 0 < d.repeats) :
    (d.add_user_progress u 0).users = d.users ++ [u]
    ∧ ledgerGet? (d.add_user_progress u 0).day_ledger u = some 0
    ∧ (∀ v, ledgerGetD (d.add_user_progress u 0).day_ledger v = ledgerGetD d.day_ledger v)
    ∧ (d.is_all_users_done = true → (d.add_user_progress u 0).is_all_users_done = false) := by
  have hnotmem : u ∉ d.users := by simpa using hu
  have husers : (d.add_user_progress u 0).users = d.users ++ [u] := by
    simp [ContextData.add_user_progress, hu, hnotmem]
  have hled := day_ledger_add_user_progress d u 0 hd
  have hzero : ledgerGet? (d.add_user_progress u 0).day_ledger u = some 0 := by
    rw [hled, ledgerGet?_entryAdd_self, ledgerGetD, hl]
    decide
  refine ⟨husers, hzero, ?_, ?_⟩
  · intro v
    rw [hled, ledgerGetD_entryAdd]
    by_cases hv : u = v
    · rw [if_pos hv, ← hv, ledgerGetD, hl]
      decide
    · rw [if_neg hv]
  · intro _
    have hmem : u ∈ (d.add_user_progress u 0).users := by
      rw [husers]
      simp
    have hnotdone : (d.add_user_progress u 0).is_user_done u = false := by
      unfold ContextData.is_user_done
      rw [add_user_progress_repeats, ledgerGetD, hzero]
      simp
      omega
    cases hall : (d.add_user_progress u 0).is_all_users_done with
    | false => rfl
    | true =>
        exfalso
        unfold ContextData.is_all_users_done at hall
        have := List.all_eq_true.mp hall u hmem
        rw [hnotdone] at this
        exact Bool.false_ne_true this

/-- Witness for C10: with alice done (100 of 100), bob reporting 0 flips the
all-done predicate to false. -/
theorem zero_report_flips_all_done_witness :
    done_state.is_all_users_done = true
    ∧ (done_state.add_user_progress "b" 0).is_all_users_done = false :=
  ⟨by decide,
    (zero_report_flips_all_done done_state "b" (by decide) (by decide) (by decide)
      (by decide)).2.2.2 (by decide)⟩

end Workout
